import Mathlib

/-!
Verification of the Kitchen Buddy ingredient core: the date utilities
(`src/utils/dateUtils.ts`), the ingredient collection operations
(`src/utils/ingredientUtils.ts`) and the storage layer
(`src/utils/storageUtils.ts`), shallowly embedded in Lean.

Dates: the TypeScript code passes calendar dates around as ISO `YYYY-MM-DD`
strings and immediately parses them with `new Date(...)`; after
`setHours(0,0,0,0)` every date is a plain civil day.  We embed a parsed,
valid date as a `(year, month, day)` triple and JavaScript epoch
milliseconds at midnight as epoch days (the proleptic Gregorian day count,
Howard Hinnant's `days_from_civil` / `civil_from_days` algorithms, which is
exactly what `Date.getTime` / `toISOString` compute for date-only values).
On a valid date the parse / `toISOString().split('T')[0]` round trip of the
source is the identity, so a code path that re-serialises an unmodified
date is embedded as the identity.  An absent date (empty string /
`undefined`, both falsy in the source's `if (!date)` guards) is `none`.
-/

namespace KitchenBuddy

/-- A parsed calendar date `YYYY-MM-DD` (a valid civil date). -/
structure Date where
  year : Int
  month : Int
  day : Int
deriving DecidableEq

/-- `Math.ceil (a / b)` for an integer `a` and a positive integer `b`
(the only shape of ceiling the source uses). -/
def ceilDiv (a b : Int) : Int := -(Int.fdiv (-a) b)

/-- `1000 * 60 * 60 * 24`, the `oneDay` divisor of the source. -/
def msPerDay : Int := 1000 * 60 * 60 * 24

/-- Days since 1970-01-01 of a civil date (Hinnant's `days_from_civil`);
this is `new Date(s).getTime() / msPerDay` for a date-only string `s`. -/
def epochDays (dt : Date) : Int :=
  let y := if dt.month ≤ 2 then dt.year - 1 else dt.year
  let era := Int.fdiv y 400
  let yoe := y - era * 400
  let mp := Int.emod (dt.month + 9) 12
  let doy := Int.fdiv (153 * mp + 2) 5 + dt.day - 1
  let doe := yoe * 365 + Int.fdiv yoe 4 - Int.fdiv yoe 100 + doy
  era * 146097 + doe - 719468

/-- Civil date of a day count (Hinnant's `civil_from_days`); this is the
normalisation `toISOString().split('T')[0]` applies after day/month field
arithmetic on a JavaScript `Date`. -/
def dateOfEpochDays (z0 : Int) : Date :=
  let z := z0 + 719468
  let era := Int.fdiv z 146097
  let doe := z - era * 146097
  let yoe := Int.fdiv (doe - Int.fdiv doe 1460 + Int.fdiv doe 36524 - Int.fdiv doe 146096) 365
  let y := yoe + era * 400
  let doy := doe - (365 * yoe + Int.fdiv yoe 4 - Int.fdiv yoe 100)
  let mp := Int.fdiv (5 * doy + 2) 153
  let d := doy - Int.fdiv (153 * mp + 2) 5 + 1
  let m := if mp < 10 then mp + 3 else mp - 9
  { year := if m ≤ 2 then y + 1 else y, month := m, day := d }

/-- `getDaysUntilExpiration` (src/utils/dateUtils.ts).  `none` embeds the
JavaScript `Infinity` sentinel returned when no expiration date is set;
otherwise both dates are set to midnight and the millisecond difference is
divided by `oneDay` and ceiled. -/
def getDaysUntilExpiration (today : Date) : Option Date → Option Int
  | none => none
  | some expDate =>
      some (ceilDiv ((epochDays expDate - epochDays today) * msPerDay) msPerDay)

/-- JavaScript `x >= 0` where `x` is a finite number or `Infinity` (`none`):
`Infinity >= 0` is `true`. -/
def jsGe0 : Option Int → Bool
  | none => true
  | some n => decide (0 ≤ n)

/-- JavaScript `x <= t` where `x` is a finite number or `Infinity` (`none`):
`Infinity <= t` is `false` for every finite `t`. -/
def jsLe (t : Int) : Option Int → Bool
  | none => false
  | some n => decide (n ≤ t)

/-- `isExpiringSoon` (src/utils/dateUtils.ts): `false` when no date is set,
otherwise `daysUntil >= 0 && daysUntil <= daysThreshold`. -/
def isExpiringSoon (today : Date) (expirationDate : Option Date) (daysThreshold : Int) : Bool :=
  match expirationDate with
  | none => false
  | some _ =>
      let daysUntil := getDaysUntilExpiration today expirationDate
      jsGe0 daysUntil && jsLe daysThreshold daysUntil

/-- JavaScript `expDate.setMonth(expDate.getMonth() + 6)` followed by
re-serialisation: the 0-based month field is increased by 6 (carrying into
the year), the day-of-month is kept, and the result is normalised by day
arithmetic from the first of the target month (this is how a JavaScript
`Date` resolves an out-of-range day-of-month). -/
def jsSetMonthPlus6 (dt : Date) : Date :=
  let m0 := dt.month - 1 + 6
  let y := dt.year + Int.fdiv m0 12
  let m := Int.emod m0 12 + 1
  dateOfEpochDays (epochDays { year := y, month := m, day := 1 } + (dt.day - 1))

/-- `adjustExpirationForFrozen` (src/utils/dateUtils.ts): empty date stays
empty; when `isFrozen` the parsed date gets 6 months added via `setMonth`,
otherwise the parsed date is re-serialised unchanged. -/
def adjustExpirationForFrozen (expirationDate : Option Date) ( isFrozen : Bool) : Option Date :=
  match expirationDate with
  | none => none
  | some expDate => some (if isFrozen then jsSetMonthPlus6 expDate else expDate)

/-- `adjustExpirationForOpened` (src/utils/dateUtils.ts): empty date stays
empty; when `isOpened` the parsed date has 7 days subtracted via
`setDate(getDate() - 7)` (which JavaScript normalises exactly like moving 7
days back on the day line), otherwise the parsed date is re-serialised
unchanged. -/
def adjustExpirationForOpened (expirationDate : Option Date) ( isOpened : Bool) : Option Date :=
  match expirationDate with
  | none => none
  | some expDate =>
      some (if isOpened then dateOfEpochDays (epochDays expDate - 7) else expDate)

/-- `needsRipenessCheck` (src/utils/dateUtils.ts): `false` when
`lastRipenessUpdate` is absent, otherwise
`ceil((midnight(today) - midnight(lastUpdate)) / oneDay) > daysThreshold`. -/
def needsRipenessCheck (today : Date) (lastRipenessUpdate : Option Date)
    (daysThreshold : Int) : Bool :=
  match lastRipenessUpdate with
  | none => false
  | some lastUpdate =>
      let diffDays := ceilDiv ((epochDays today - epochDays lastUpdate) * msPerDay) msPerDay
      decide (diffDays > daysThreshold)

/-- The `Ingredient` interface (src/utils/ingredientUtils.ts).  Optional
string fields are `Option String` (`none` for `undefined`); `expiration`
and `lastRipenessUpdate` hold parsed dates, `none` for an absent or empty
value (both are falsy in the source's guards). -/
structure Ingredient where
  id : String
  name : String
  brand : Option String
  ripeness : Option String
  category : Option String
  location : Option String
  confection : Option String
  expiration : Option Date
  lastRipenessUpdate : Option Date
  isFrozen : Bool
  isOpened : Bool
deriving DecidableEq

/-- The filter predicate of `getExpiringSoonIngredients`
(src/utils/ingredientUtils.ts): `isRelevant || (isExpiring && isNotFrozen)`
with `isRelevant = ripeness === 'Ripe/Mature' || isOpened`,
`isNotFrozen = !isFrozen || isExpiringSoon(expiration, t)` and
`isExpiring = expiration && isExpiringSoon(expiration, t)` (the truthiness
test on `expiration` is `Option.isSome` here). -/
def expiringSoonFilter (today : Date) (daysThreshold : Int) (item : Ingredient) : Bool :=
  let isRelevant := (item.ripeness == some "Ripe/Mature") || item.isOpened
  let isNotFrozen := !item.isFrozen || isExpiringSoon today item.expiration daysThreshold
  let isExpiring := item.expiration.isSome && isExpiringSoon today item.expiration daysThreshold
  isRelevant || (isExpiring && isNotFrozen)

/-- `getExpiringSoonIngredients` (src/utils/ingredientUtils.ts). -/
def getExpiringSoonIngredients (today : Date) (ingredients : List Ingredient)
    (daysThreshold : Int) : List Ingredient :=
  ingredients.filter (expiringSoonFilter today daysThreshold)

/-- `updateIngredient` (src/utils/ingredientUtils.ts): map every item whose
id matches to the updated ingredient, keep the rest. -/
def updateIngredient (ingredients : List Ingredient) (updatedIngredient : Ingredient) :
    List Ingredient :=
  ingredients.map (fun item => if item.id = updatedIngredient.id then updatedIngredient else item)

/-- `addIngredient` (src/utils/ingredientUtils.ts): `[...ingredients, new]`. -/
def addIngredient (ingredients : List Ingredient) (newIngredient : Ingredient) :
    List Ingredient :=
  ingredients ++ [newIngredient]

/-- `deleteIngredient` (src/utils/ingredientUtils.ts): keep the items whose
id differs. -/
def deleteIngredient (ingredients : List Ingredient) (id : String) : List Ingredient :=
  ingredients.filter (fun item => item.id != id)

/-- The persisted slot of AsyncStorage under `INGREDIENTS_STORAGE_KEY`
(src/utils/storageUtils.ts): `none` when nothing is stored, `some c` for a
stored JSON serialisation of the collection `c` (JSON round-trips the
collection verbatim). -/
structure StorageState where
  stored : Option (List Ingredient)
deriving DecidableEq

/-- `loadIngredients` (src/utils/storageUtils.ts).  `readFails` models
`AsyncStorage.getItem` throwing: the `catch` logs and returns `[]`.
Otherwise a stored value is parsed and returned and an absent value yields
`[]`. -/
def loadIngredients (readFails : Bool) (s : StorageState) : List Ingredient :=
  if readFails then []
  else
    match s.stored with
    | some storedIngredients => storedIngredients
    | none => []

/-- `clearAllIngredients` (src/utils/storageUtils.ts).  `removeFails` models
`AsyncStorage.removeItem` throwing: the `catch` logs and reports `false`
with the slot untouched; on success the slot is removed and `true` is
reported.  The result pairs the storage state after the call with the
returned boolean. -/
def clearAllIngredients (removeFails : Bool) (s : StorageState) : StorageState × Bool :=
  if removeFails then (s, false)
  else ({ stored := none }, true)

/-! ### Concrete evaluation fixtures -/

/-- A fixed "now" for all concrete evaluations: 2024-01-10. -/
def refToday : Date := ⟨2024, 1, 10⟩

/-- Builds an ingredient fixing the fields the expiring-soon policy reads. -/
def mkItem (id : String) (ripeness : Option String) (expiration : Option Date)
    ( isFrozen isOpened : Bool) : Ingredient :=
  { id := id, name := "item", brand := none, ripeness := ripeness, category := none,
    location := none, confection := none, expiration := expiration,
    lastRipenessUpdate := none, isFrozen := isFrozen, isOpened := isOpened }

/-- Ripe/Mature, no expiration, not opened, not frozen. -/
def ripeNoDate : Ingredient := mkItem "1" (some "Ripe/Mature") none false false

/-- Expiration 10 days after `refToday`, no other attention trigger. -/
def farOut : Ingredient := mkItem "2" none (some ⟨2024, 1, 20⟩) false false

/-- Frozen, expiration 3 days after `refToday`, no other attention trigger. -/
def frozenNear : Ingredient := mkItem "3" none (some ⟨2024, 1, 13⟩) true false

/-! ### Helper lemmas -/

/-- Dividing an exact multiple of `msPerDay` by `msPerDay` and ceiling gives
the multiplier back: the millisecond detour of the source is exact. -/
theorem ceilDiv_mul_msPerDay (a : Int) : ceilDiv (a * msPerDay) msPerDay = a := by
  unfold ceilDiv msPerDay
  rw [← Int.neg_mul, Int.mul_fdiv_cancel _ (by norm_num), neg_neg]

/-- The expiring-soon filter simplified: the frozen conjunct is absorbed. -/
theorem expiringSoonFilter_eq_simplified (today : Date) (t : Int) (i : Ingredient) :
    expiringSoonFilter today t i =
      (((i.ripeness == some "Ripe/Mature") || i.isOpened) ||
        (i.expiration.isSome && isExpiringSoon today i.expiration t)) := by
  unfold expiringSoonFilter
  cases isExpiringSoon today i.expiration t <;> cases i.isFrozen <;>
    cases i.isOpened <;> simp

/-! ### Claim theorems -/

/-- C1: membership in the expiring-soon view is governed exactly by the
disjunctive policy `(ripeness = "Ripe/Mature" ∨ opened) ∨ (set expiration ∧
expiring-soon ∧ (not frozen ∨ still expiring-soon when frozen))`; moreover a
Ripe/Mature record with no expiration and not opened is included, a record
whose expiration is 10 days out under threshold 7 is excluded, and a frozen
record whose expiration is 3 days out under threshold 7 is included. -/
theorem getExpiringSoon_policy :
    (∀ (today : Date) (ingredients : List Ingredient) (t : Int) (item : Ingredient),
        item ∈ getExpiringSoonIngredients today ingredients t ↔
          item ∈ ingredients ∧
            ((item.ripeness = some "Ripe/Mature" ∨ item.isOpened = true) ∨
              (item.expiration.isSome = true ∧
                isExpiringSoon today item.expiration t = true ∧
                (item.isFrozen = false ∨ isExpiringSoon today item.expiration t = true)))) ∧
    ripeNoDate ∈ getExpiringSoonIngredients refToday [ripeNoDate, farOut, frozenNear] 7 ∧
    farOut ∉ getExpiringSoonIngredients refToday [ripeNoDate, farOut, frozenNear] 7 ∧
    frozenNear ∈ getExpiringSoonIngredients refToday [ripeNoDate, farOut, frozenNear] 7 := by
  refine ⟨?_, by decide, by decide, by decide⟩
  intro today ingredients t item
  simp only [getExpiringSoonIngredients, List.mem_filter, expiringSoonFilter,
    Bool.or_eq_true, Bool.and_eq_true, Bool.not_eq_true', beq_iff_eq]
  tauto

/-- C1 witness: the policy applied to a one-record collection. -/
theorem getExpiringSoon_policy_w :
    ripeNoDate ∈ getExpiringSoonIngredients refToday [ripeNoDate] 7 :=
  (getExpiringSoon_policy.1 refToday [ripeNoDate] 7 ripeNoDate).mpr
    ⟨by decide, Or.inl (Or.inl (by decide))⟩

/-- C2: the expiring-soon view never depends on `isFrozen`: flipping the flag
on a record leaves the filter's verdict unchanged, the filter is equivalent
to the simplified predicate `(ripeness = "Ripe/Mature" ∨ opened) ∨ (set
expiration ∧ expiring-soon)`, and rewriting every record's `isFrozen` flag
commutes with the view. -/
theorem expiringSoon_frozen_independent :
    (∀ (today : Date) (t : Int) (i : Ingredient) (b : Bool),
        expiringSoonFilter today t { i with isFrozen := b } = expiringSoonFilter today t i) ∧
    (∀ (today : Date) (t : Int) (i : Ingredient),
        expiringSoonFilter today t i =
          (((i.ripeness == some "Ripe/Mature") || i.isOpened) ||
            (i.expiration.isSome && isExpiringSoon today i.expiration t))) ∧
    (∀ (today : Date) (t : Int) (ingredients : List Ingredient) (g : Ingredient → Bool),
        getExpiringSoonIngredients today
            (ingredients.map fun i => { i with isFrozen := g i }) t =
          (getExpiringSoonIngredients today ingredients t).map
            fun i => { i with isFrozen := g i }) := by
  refine ⟨fun today t i b => by simp [expiringSoonFilter_eq_simplified], ?_, ?_⟩
  · exact fun today t i => expiringSoonFilter_eq_simplified today t i
  · intro today t ingredients g
    unfold getExpiringSoonIngredients
    rw [List.filter_map]
    congr 1
    exact List.filter_congr fun i _ => by
      simp [Function.comp, expiringSoonFilter_eq_simplified]

/-- C2 witness: flipping `isFrozen` on the frozen fixture does not change the
filter's verdict. -/
theorem expiringSoon_frozen_independent_w :
    expiringSoonFilter refToday 7 { frozenNear with isFrozen := false } =
      expiringSoonFilter refToday 7 frozenNear :=
  expiringSoon_frozen_independent.1 refToday 7 frozenNear false

/-- C3: freezing shifts the expiration forward by 6 calendar months
(2024-01-01 becomes 2024-07-01, 2024-03-15 becomes 2024-09-15), a false flag
returns the date unchanged for every input, and two successive true calls
compound to 12 months (2024-01-01 becomes 2025-01-01). -/
theorem adjustExpirationForFrozen_spec :
    adjustExpirationForFrozen (some ⟨2024, 1, 1⟩) true = some ⟨2024, 7, 1⟩ ∧
    adjustExpirationForFrozen (some ⟨2024, 3, 15⟩) true = some ⟨2024, 9, 15⟩ ∧
    (∀ e : Option Date, adjustExpirationForFrozen e false = e) ∧
    adjustExpirationForFrozen (adjustExpirationForFrozen (some ⟨2024, 1, 1⟩) true) true =
      some ⟨2025, 1, 1⟩ := by
  refine ⟨by decide, by decide, ?_, by decide⟩
  intro e
  cases e <;> rfl

/-- C3 witness: the unchanged-when-false conjunct at a concrete date. -/
theorem adjustExpirationForFrozen_spec_w :
    adjustExpirationForFrozen (some ⟨2024, 2, 2⟩) false = some ⟨2024, 2, 2⟩ :=
  adjustExpirationForFrozen_spec.2.2.1 (some ⟨2024, 2, 2⟩)

/-- C4: with no expiration set the function returns the never-expires
sentinel (`none`, embedding JavaScript `Infinity`); with a date set it
returns the exact midnight-to-midnight day difference (the millisecond
ceiling collapses to it), so a date equal to today gives 0 and a date
already passed gives a negative count. -/
theorem getDaysUntilExpiration_spec :
    (∀ today : Date, getDaysUntilExpiration today none = none) ∧
    (∀ today expDate : Date,
        getDaysUntilExpiration today (some expDate) =
          some (epochDays expDate - epochDays today)) ∧
    (∀ today : Date, getDaysUntilExpiration today (some today) = some 0) ∧
    (∀ today expDate : Date, epochDays expDate < epochDays today →
        ∃ n : Int, getDaysUntilExpiration today (some expDate) = some n ∧ n < 0) := by
  have key : ∀ today expDate : Date,
      getDaysUntilExpiration today (some expDate) =
        some (epochDays expDate - epochDays today) := by
    intro today expDate
    simp [getDaysUntilExpiration, ceilDiv_mul_msPerDay]
  exact ⟨fun _ => rfl, key, fun today => by simp [key],
    fun today expDate h => ⟨_, key today expDate, by omega⟩⟩

/-- C4 witness: a date 5 days before `refToday` yields a negative count. -/
theorem getDaysUntilExpiration_spec_w :
    epochDays ⟨2024, 1, 5⟩ < epochDays refToday ∧
    ∃ n : Int, getDaysUntilExpiration refToday (some ⟨2024, 1, 5⟩) = some n ∧ n < 0 :=
  ⟨by decide, getDaysUntilExpiration_spec.2.2.2 refToday ⟨2024, 1, 5⟩ (by decide)⟩

/-- C5: `isExpiringSoon` holds exactly when a date is set and the day count
lies in `[0, threshold]`; under threshold 7 a date 7 days out passes, 8 days
out fails, 1 day past fails, and an absent date always fails. -/
theorem isExpiringSoon_spec :
    (∀ (today : Date) (e : Option Date) (t : Int),
        isExpiringSoon today e t = true ↔
          ∃ d, e = some d ∧
            ∃ n : Int, getDaysUntilExpiration today (some d) = some n ∧ 0 ≤ n ∧ n ≤ t) ∧
    isExpiringSoon refToday (some ⟨2024, 1, 17⟩) 7 = true ∧
    isExpiringSoon refToday (some ⟨2024, 1, 18⟩) 7 = false ∧
    isExpiringSoon refToday (some ⟨2024, 1, 9⟩) 7 = false ∧
    (∀ t : Int, isExpiringSoon refToday none t = false) := by
  refine ⟨?_, by decide, by decide, by decide, fun _ => rfl⟩
  intro today e t
  cases e with
  | none => simp [isExpiringSoon]
  | some d => simp [isExpiringSoon, jsGe0, jsLe, getDaysUntilExpiration, and_comm]

/-- C5 witness: the forward implication at the 7-days-out example. -/
theorem isExpiringSoon_spec_w :
    ∃ d, (some ⟨2024, 1, 17⟩ : Option Date) = some d ∧
      ∃ n : Int, getDaysUntilExpiration refToday (some d) = some n ∧ 0 ≤ n ∧ n ≤ 7 :=
  (isExpiringSoon_spec.1 refToday (some ⟨2024, 1, 17⟩) 7).mp (by decide)

/-- C6: deleting a freshly added ingredient whose id is absent from the
collection restores the collection exactly (hence also up to order). -/
theorem delete_add_id (C : List Ingredient) (i : Ingredient)
    (h : ∀ j ∈ C, j.id ≠ i.id) :
    deleteIngredient (addIngredient C i) i.id = C := by
  have hC : C.filter (fun item => item.id != i.id) = C :=
    List.filter_eq_self.mpr fun a ha => by simpa using h a ha
  simp [deleteIngredient, addIngredient, List.filter_append, hC]

/-- C6 witness: add-then-delete on a one-record collection. -/
theorem delete_add_id_w :
    deleteIngredient (addIngredient [farOut] ripeNoDate) ripeNoDate.id = [farOut] :=
  delete_add_id [farOut] ripeNoDate (by decide)

/-- C7: `updateIngredient` keeps the length, replaces exactly the positions
whose id matches the update's id (so with unique ids, the one position of
the matched record becomes the updated record and all others are
untouched), and is the identity when no id matches. -/
theorem updateIngredient_spec (C : List Ingredient) (u : Ingredient) :
    (updateIngredient C u).length = C.length ∧
    (∀ k : Nat, (updateIngredient C u)[k]? =
        (C[k]?).map fun item => if item.id = u.id then u else item) ∧
    ((∀ j ∈ C, j.id ≠ u.id) → updateIngredient C u = C) := by
  refine ⟨by simp [updateIngredient], fun k => by simp [updateIngredient], ?_⟩
  intro h
  have : C.map (fun item => if item.id = u.id then u else item) = C.map id :=
    List.map_congr_left fun a ha => by simp [h a ha]
  simpa [updateIngredient] using this

/-- C7 witness: updating with an id absent from the collection is a no-op. -/
theorem updateIngredient_spec_w :
    updateIngredient [farOut] ripeNoDate = [farOut] :=
  (updateIngredient_spec [farOut] ripeNoDate).2.2 (by decide)

/-- C8: opening shifts the expiration backward by exactly 7 days (2024-01-08
becomes 2024-01-01, and across a month boundary 2024-03-03 becomes
2024-02-25 in the leap year), and a false flag returns the date unchanged
for every input. -/
theorem adjustExpirationForOpened_spec :
    adjustExpirationForOpened (some ⟨2024, 1, 8⟩) true = some ⟨2024, 1, 1⟩ ∧
    adjustExpirationForOpened (some ⟨2024, 3, 3⟩) true = some ⟨2024, 2, 25⟩ ∧
    (∀ e : Option Date, adjustExpirationForOpened e false = e) := by
  refine ⟨by decide, by decide, ?_⟩
  intro e
  cases e <;> rfl

/-- C8 witness: the unchanged-when-false conjunct at a concrete date. -/
theorem adjustExpirationForOpened_spec_w :
    adjustExpirationForOpened (some ⟨2024, 5, 5⟩) false = some ⟨2024, 5, 5⟩ :=
  adjustExpirationForOpened_spec.2.2 (some ⟨2024, 5, 5⟩)

/-- C9: `needsRipenessCheck` holds exactly when a last update is set and the
midnight-to-midnight day count since it strictly exceeds the threshold; 4
days ago under threshold 3 passes, 2 days ago fails, absent always fails. -/
theorem needsRipenessCheck_spec :
    (∀ (today : Date) (lu : Option Date) (t : Int),
        needsRipenessCheck today lu t = true ↔
          ∃ d, lu = some d ∧ t < epochDays today - epochDays d) ∧
    needsRipenessCheck refToday (some ⟨2024, 1, 6⟩) 3 = true ∧
    needsRipenessCheck refToday (some ⟨2024, 1, 8⟩) 3 = false ∧
    (∀ t : Int, needsRipenessCheck refToday none t = false) := by
  refine ⟨?_, by decide, by decide, fun _ => rfl⟩
  intro today lu t
  cases lu with
  | none => simp [needsRipenessCheck]
  | some d => simp [needsRipenessCheck, ceilDiv_mul_msPerDay]

/-- C9 witness: the forward implication at the 4-days-ago example. -/
theorem needsRipenessCheck_spec_w :
    ∃ d, (some ⟨2024, 1, 6⟩ : Option Date) = some d ∧
      3 < epochDays refToday - epochDays d :=
  (needsRipenessCheck_spec.1 refToday (some ⟨2024, 1, 6⟩) 3).mp (by decide)

/-- C10: loading yields the empty collection when nothing is persisted and
when the read fails (the failure is swallowed), and after a clear that
reports success a subsequent load yields the empty collection. -/
theorem storage_load_clear_spec :
    (∀ b : Bool, loadIngredients b { stored := none } = []) ∧
    (∀ s : StorageState, loadIngredients true s = []) ∧
    (∀ (f₁ f₂ : Bool) (s s' : StorageState),
        clearAllIngredients f₁ s = (s', true) → loadIngredients f₂ s' = []) := by
  refine ⟨fun b => by cases b <;> rfl, fun s => rfl, ?_⟩
  intro f₁ f₂ s s' h
  cases f₁ with
  | true => simp [clearAllIngredients] at h
  | false =>
      have hs : s' = { stored := none } := by
        simpa [clearAllIngredients] using congrArg Prod.fst h.symm
      cases f₂ <;> simp [loadIngredients, hs]

/-- C10 witness: clearing a nonempty store succeeds and the next load is
empty. -/
theorem storage_load_clear_spec_w :
    loadIngredients false { stored := none } = [] :=
  storage_load_clear_spec.2.2 false false { stored := some [ripeNoDate] }
    { stored := none } rfl

end KitchenBuddy
